import Mathlib

/-!
Shallow embedding of the socketpidevices benchmarking core
(src/python/server.py, src/python/client.py, src/nodepy/client.py)
and proofs about the claims of its specification.

Byte strings are modelled as lists of naturals, Python numbers as ℚ
(ints that only count as ℕ), and fallible Python code as `Except`/`Option`
values.  Wall-clock readings (perf_counter, datetime.now) are passed in as
explicit parameters.
-/

namespace SocketPi

/-! ## Echo Server state (src/python/server.py, SocketServer.__init__) -/

/-- The metrics counters of src/python/server.py, SocketServer.__init__
(self.stats dictionary, metrics entry). -/
structure Metrics where
  bytesReceived : Nat
  bytesSent : Nat
  packetsReceived : Nat
  packetsSent : Nat
deriving DecidableEq, Repr

/-- The whole stats dictionary of SocketServer: start time, the two
per-transport sets of active connections (connections identified by a
natural number), and the metrics counters. -/
structure ServerState where
  startTime : Int
  tcpConnections : Finset Nat
  wsConnections : Finset Nat
  metrics : Metrics

/-- The stats dictionary as initialised in SocketServer.__init__. -/
def initialState (t : Int) : ServerState :=
  { startTime := t
    tcpConnections := ∅
    wsConnections := ∅
    metrics := { bytesReceived := 0, bytesSent := 0, packetsReceived := 0, packetsSent := 0 } }

/-- One loop iteration of handle_tcp_client (and of ws_handler) on a chunk of
`n` bytes: bytesReceived and packetsReceived are incremented, the chunk is
sent back, then bytesSent and packetsSent are incremented.  The net effect on
the stats of handling one chunk. -/
def handleChunk (s : ServerState) (n : Nat) : ServerState :=
  { s with metrics :=
    { bytesReceived := s.metrics.bytesReceived + n
      packetsReceived := s.metrics.packetsReceived + 1
      bytesSent := s.metrics.bytesSent + n
      packetsSent := s.metrics.packetsSent + 1 } }

/-- The effect on the stats of a sequence of fully completed chunk
handlings, given the list of chunk sizes in the order they were handled
(across any interleaving of connections). -/
def handleChunks (s : ServerState) (ns : List Nat) : ServerState :=
  ns.foldl handleChunk s

/-- The accept step of tcp_server_loop: the fresh connection is added to the
tcp active set. -/
def acceptTcp (s : ServerState) (conn : Nat) : ServerState :=
  { s with tcpConnections := insert conn s.tcpConnections }

/-- handle_tcp_client as a whole, for a connection whose handled chunk sizes
were `chunks` (an exception may cut the loop short, in which case `chunks`
is the prefix that was actually handled): the loop body runs for each chunk
and then the finally block removes the connection from the active set and
closes the socket, on every exit path. -/
def handle_tcp_client (s : ServerState) (conn : Nat) (chunks : List Nat) : ServerState :=
  let s2 := handleChunks s chunks
  { s2 with tcpConnections := s2.tcpConnections.erase conn }

/-! ## Echo behaviour on the wire (handle_tcp_client, ws_handler) -/

/-- A byte string. -/
abbrev Bytes := List Nat

/-- A wire event as seen from the server: one recv of a chunk, or one send. -/
inductive Event
  | recv (data : Bytes)
  | send (data : Bytes)
deriving DecidableEq, Repr

/-- The wire trace of handle_tcp_client.  Each element of the input pairs
the chunk returned by one recv call with the number of bytes the kernel
accepts from the following client_conn.send(data) call: send on a stream
socket may write only a prefix of its buffer, and the handler ignores its
return value, so exactly the accepted prefix goes on the wire and the
remainder is never retried.  A zero-length read means the peer closed and
the loop breaks; otherwise the send happens before the next recv is
issued. -/
def tcpEchoTrace : List (Bytes × Nat) → List Event
  | [] => []
  | (c, k) :: rest =>
    if c = [] then [] else Event.recv c :: Event.send (c.take k) :: tcpEchoTrace rest

/-- The wire trace of ws_handler over the messages of the connection: each
message is sent back before the next message is awaited. -/
def wsEchoTrace : List Bytes → List Event
  | [] => []
  | m :: rest => Event.recv m :: Event.send m :: wsEchoTrace rest

/-- All bytes written by the server in a trace, in order. -/
def sentBytes : List Event → Bytes
  | [] => []
  | Event.send d :: rest => d ++ sentBytes rest
  | Event.recv _ :: rest => sentBytes rest

/-- All bytes received by the server in a trace, in order. -/
def receivedBytes : List Event → Bytes
  | [] => []
  | Event.send _ :: rest => receivedBytes rest
  | Event.recv d :: rest => d ++ receivedBytes rest

/-! ## Metrics endpoint (SocketServer.get_metrics) -/

/-- A Python runtime error raised by an arithmetic operation. -/
inductive PyError
  | zeroDivision
deriving DecidableEq, Repr

/-- Python division on floats: raises ZeroDivisionError when the denominator
is zero, otherwise divides. -/
def pyDiv (a b : ℚ) : Except PyError ℚ :=
  if b = 0 then Except.error PyError.zeroDivision else Except.ok (a / b)

/-- The throughput block of the get_metrics document: the four rate fields. -/
structure RateMetrics where
  bytesInPerSec : ℚ
  bytesOutPerSec : ℚ
  packetsInPerSec : ℚ
  packetsOutPerSec : ℚ
deriving DecidableEq, Repr

/-- The part of the get_metrics document computed from the server's own
state.  The system block of the document is the System Stats Provider
snapshot (os and vcgencmd calls), external to the server state, and is not
modelled here. -/
structure MetricsDoc where
  uptime : ℚ
  tcpConnCount : Nat
  wsConnCount : Nat
  totalConnCount : Nat
  throughput : RateMetrics
deriving DecidableEq, Repr

/-- SocketServer.get_metrics: uptime is the wall-clock seconds since
startTime (passed in as `uptime`), and every rate field is the corresponding
counter divided by uptime with Python division, which raises
ZeroDivisionError when uptime is zero. -/
def get_metrics (s : ServerState) (uptime : ℚ) : Except PyError MetricsDoc := do
  let bin ← pyDiv s.metrics.bytesReceived uptime
  let bout ← pyDiv s.metrics.bytesSent uptime
  let pin ← pyDiv s.metrics.packetsReceived uptime
  let pout ← pyDiv s.metrics.packetsSent uptime
  Except.ok
    { uptime := uptime
      tcpConnCount := s.tcpConnections.card
      wsConnCount := s.wsConnections.card
      totalConnCount := s.tcpConnections.card + s.wsConnections.card
      throughput :=
        { bytesInPerSec := bin
          bytesOutPerSec := bout
          packetsInPerSec := pin
          packetsOutPerSec := pout } }

/-! ## Monitor data and its aggregation (src/python/client.py) -/

/-- One network counter sample appended by monitor_loop: the cumulative
bytes and packets read from /proc/net/dev. -/
structure NetEntry where
  bytes : Nat
  packets : Nat
deriving DecidableEq, Repr

/-- The net entry of the monitor_data dictionary. -/
structure NetSeries where
  rx : List NetEntry
  tx : List NetEntry
deriving DecidableEq, Repr

/-- The monitor_data dictionary of start_monitoring: parallel append-only
lists, one per sampled metric. -/
structure MonitorData where
  timestamps : List Int
  cpu : List ℚ
  mem : List ℚ
  temp : List ℚ
  net : NetSeries
  clock : List ℚ
deriving DecidableEq, Repr

/-- The empty monitor_data created by start_monitoring. -/
def emptyMonitorData : MonitorData :=
  { timestamps := [], cpu := [], mem := [], temp := [], net := { rx := [], tx := [] }, clock := [] }

/-- The avg helper of analyze_monitor_data: sum over length, and 0 on an
empty list. -/
def avg (arr : List ℚ) : ℚ :=
  if arr = [] then 0 else arr.sum / arr.length

/-- The record returned by analyze_monitor_data. -/
structure AggregatedMetrics where
  cpuAvg : ℚ
  memAvg : ℚ
  tempAvg : ℚ
  rxTotal : Int
  txTotal : Int
  clockAvg : ℚ
deriving DecidableEq, Repr

/-- analyze_monitor_data: averages over the full series for cpu, mem, temp
and clock, and the sums over the full series of the sampled cumulative byte
counters for rxTotal and txTotal. -/
def analyze_monitor_data (md : MonitorData) : AggregatedMetrics :=
  { cpuAvg := avg md.cpu
    memAvg := avg md.mem
    tempAvg := avg md.temp
    rxTotal := (md.net.rx.map fun x => (x.bytes : Int)).sum
    txTotal := (md.net.tx.map fun x => (x.bytes : Int)).sum
    clockAvg := avg md.clock }

/-- The values of a parallel series whose timestamps fall inside the window
[lo, hi]: timestamps are paired positionally with values, as the Monitor
appends them. -/
def windowValues (ts : List Int) (vals : List ℚ) (lo hi : Int) : List ℚ :=
  ((ts.zip vals).filter fun p => decide (lo ≤ p.1 ∧ p.1 ≤ hi)).map Prod.snd

/-- The net entries of a parallel series whose timestamps fall inside the
window [lo, hi]. -/
def windowEntries (ts : List Int) (es : List NetEntry) (lo hi : Int) : List NetEntry :=
  ((ts.zip es).filter fun p => decide (lo ≤ p.1 ∧ p.1 ≤ hi)).map Prod.snd

/-- The delta of a cumulative byte counter between the first and the last
sample of a series, 0 when the series has no sample. -/
def counterDelta (es : List NetEntry) : Int :=
  match es.head?, es.getLast? with
  | some a, some b => (b.bytes : Int) - (a.bytes : Int)
  | _, _ => 0

/-- Modelled from the spec: the windowed aggregation the specification
describes for AggregatedMetrics — averages over the sub-series of Monitor
samples whose timestamps fall inside the test window [lo, hi], and byte
totals taken as deltas of the cumulative counters between the start and the
end of that window.  Defined for comparison with analyze_monitor_data. -/
def analyzeWindowedSpec (md : MonitorData) (lo hi : Int) : AggregatedMetrics :=
  { cpuAvg := avg (windowValues md.timestamps md.cpu lo hi)
    memAvg := avg (windowValues md.timestamps md.mem lo hi)
    tempAvg := avg (windowValues md.timestamps md.temp lo hi)
    rxTotal := counterDelta (windowEntries md.timestamps md.net.rx lo hi)
    txTotal := counterDelta (windowEntries md.timestamps md.net.tx lo hi)
    clockAvg := avg (windowValues md.timestamps md.clock lo hi) }

/-! ## Monitor tick (monitor_loop in src/python/client.py) -/

/-- The provider readings available to one iteration of monitor_loop.  Each
field is the outcome of the shell command that produces that metric:
`none` means the command itself raised, `some` carries its output.  The cpu
and mem percentages come from one combined command whose whitespace-split
tokens are then indexed and float-parsed one at a time, so cpuMemTokens
carries the token list, each token as the outcome of its float() parse
(`none` for a token float() rejects); the list may have fewer than two
tokens, in which case the indexing itself raises.  netStats carries the
whitespace-separated numeric tokens of the /proc/net/dev line, which may be
fewer than four. -/
structure TickInput where
  cpuMemTokens : Option (List (Option ℚ))
  temp : Option ℚ
  clock : Option ℚ
  netStats : Option (List Nat)
deriving DecidableEq, Repr

/-- The cpu append of a tick happens: the combined command succeeded, its
output has a first token, and float() accepts that token. -/
def cpuStepOk (inp : TickInput) : Bool :=
  match inp.cpuMemTokens with
  | Option.none => false
  | Option.some toks =>
    match toks[0]? with
    | Option.some (Option.some _) => true
    | _ => false

/-- The mem append of a tick happens: the cpu append happened and the
output's second token exists and float-parses. -/
def memStepOk (inp : TickInput) : Bool :=
  cpuStepOk inp &&
    (match inp.cpuMemTokens with
     | Option.none => false
     | Option.some toks =>
       match toks[1]? with
       | Option.some (Option.some _) => true
       | _ => false)

/-- One iteration of monitor_loop.  The timestamp is appended first; then
each provider is consulted in order (cpu, then mem from the same command's
output, then temperature, clock and network).  The whole body runs inside
one try block, so the first failure aborts the remainder of the iteration:
fields appended before the failing statement keep their appended values,
later fields get nothing this tick.  In particular the cpu value is appended
before the mem token is even indexed and parsed, so a one-token output
leaves cpu appended and mem missing.  Only the network step has an in-band
fallback: when its command succeeds but yields fewer than four tokens, zero
entries are appended. -/
def monitor_tick (md : MonitorData) (t : Int) (inp : TickInput) : MonitorData :=
  let md0 := { md with timestamps := md.timestamps ++ [t] }
  match inp.cpuMemTokens with
  | Option.none => md0
  | Option.some toks =>
    match toks[0]? with
    | Option.none => md0
    | Option.some Option.none => md0
    | Option.some (Option.some c) =>
    let mdc := { md0 with cpu := md0.cpu ++ [c] }
    match toks[1]? with
    | Option.none => mdc
    | Option.some Option.none => mdc
    | Option.some (Option.some m) =>
    let md1 := { mdc with mem := mdc.mem ++ [m] }
    match inp.temp with
    | Option.none => md1
    | Option.some tv =>
      let md2 := { md1 with temp := md1.temp ++ [tv] }
      match inp.clock with
      | Option.none => md2
      | Option.some ck =>
        let md3 := { md2 with clock := md2.clock ++ [ck] }
        match inp.netStats with
        | Option.none => md3
        | Option.some stats =>
          if 4 ≤ stats.length then
            { md3 with net :=
              { rx := md3.net.rx ++ [{ bytes := stats.getD 0 0, packets := stats.getD 1 0 }]
                tx := md3.net.tx ++ [{ bytes := stats.getD 2 0, packets := stats.getD 3 0 }] } }
          else
            { md3 with net :=
              { rx := md3.net.rx ++ [{ bytes := 0, packets := 0 }]
                tx := md3.net.tx ++ [{ bytes := 0, packets := 0 }] } }

/-! ## Measurement Engine (latency_iteration, throughput_iteration) -/

/-- The echo-read loop of latency_iteration.  `reads` lists, in order, the
number of bytes available to each successive recv call; recv returns at most
the `size - received` bytes it was asked for, and a return of 0 means the
peer closed the connection, which breaks the loop. -/
def recv_loop (size received : Nat) : List Nat → Nat
  | [] => received
  | r :: rest =>
    if received < size then
      if r = 0 then received
      else recv_loop size (received + min r (size - received)) rest
    else received

/-- The observable outcome of latency_iteration.  `received` is the loop's
internal byte counter, exposed here so that the relation between the bytes
actually read back and the returned value can be stated; the Python function
returns only `result`. -/
structure LatencyOutcome where
  received : Nat
  result : Option ℚ
deriving DecidableEq, Repr

/-- latency_iteration: on a connect or I/O exception the except branch
returns None; otherwise the echo-read loop runs over `reads` and the elapsed
wall time (in seconds, passed in as `elapsed`) is returned multiplied by
1000, whether or not the loop read back all `size` bytes before the peer
closed. -/
def latency_iteration (size : Nat) (reads : List Nat) (elapsed : ℚ) (ioError : Bool) :
    LatencyOutcome :=
  if ioError then { received := 0, result := Option.none }
  else { received := recv_loop size 0 reads, result := Option.some (elapsed * 1000) }

/-- The bytes_sent accumulator of throughput_iteration: 1000 sendall calls
of a buffer of `messageSize` bytes, each adding the buffer length. -/
def throughput_batch_bytes (messageSize : Nat) : Nat :=
  (List.range 1000).foldl (fun acc _ => acc + messageSize) 0

/-- throughput_iteration's returned value, given the wall time `elapsed`
measured for the batch: bytes_sent / elapsed when elapsed is positive, and 0
otherwise. -/
def throughput_iteration (messageSize : Nat) (elapsed : ℚ) : ℚ :=
  if 0 < elapsed then (throughput_batch_bytes messageSize : ℚ) / elapsed else 0

/-! ## Jitter (src/nodepy/client.py, send_messages) -/

/-- One message's jitter bookkeeping in send_messages: jitter is
abs(rtt - prev_rtt) if prev_rtt else 0, where prev_rtt is None before the
first message and Python treats both None and 0.0 as falsy. -/
def jitter_step (prev : Option ℚ) (rtt : ℚ) : ℚ :=
  match prev with
  | Option.none => 0
  | Option.some p => if p = 0 then 0 else |rtt - p|

/-- The loop of send_messages restricted to its jitter column: prev_rtt is
updated to the current rtt after each message. -/
def jitters_aux (prev : Option ℚ) : List ℚ → List ℚ
  | [] => []
  | rtt :: rest => jitter_step prev rtt :: jitters_aux (Option.some rtt) rest

/-- The jitter column written to the csv by send_messages, for the rtt
sequence of the run. -/
def send_messages_jitters (rtts : List ℚ) : List ℚ :=
  jitters_aux Option.none rtts

/-- Modelled from the spec: the post-hoc jitter derivation the specification
describes, in which the first latency observation has no jitter value (null,
not 0) and each later one has the absolute difference with its predecessor.
Tail of the derivation, given the previous latency. -/
def jitterSpecTail (p : ℚ) : List ℚ → List (Option ℚ)
  | [] => []
  | y :: ys => Option.some |y - p| :: jitterSpecTail y ys

/-- Modelled from the spec: the full post-hoc jitter sequence — null for the
first observation, absolute consecutive differences after. -/
def jitterSpec : List ℚ → List (Option ℚ)
  | [] => []
  | x :: xs => Option.none :: jitterSpecTail x xs

/-- A clean recursive description of the source's jitter column after the
first element: 0 whenever the previous rtt was 0, the absolute difference
otherwise. -/
def jitterTail (p : ℚ) : List ℚ → List ℚ
  | [] => []
  | y :: ys => (if p = 0 then 0 else |y - p|) :: jitterTail y ys

/-! ## Result accumulation (run_all_tests, save_results) -/

/-- The testData dictionary produced by run_test. -/
structure TestData where
  timestamps : List Int
  latencies : List ℚ
  throughputs : List ℚ
deriving DecidableEq, Repr

/-- The test type of a mode of the test matrix. -/
inductive TestType
  | latency
  | throughput
  | jitter
deriving DecidableEq, Repr

/-- One element of the results tests list, as returned by run_test: the test
parameters, the aggregated monitor metrics, a completion timestamp
(milliseconds), and the raw observations. -/
structure TestResult where
  type : TestType
  durationSec : Nat
  messageSize : Nat
  metrics : AggregatedMetrics
  timestampMillis : Int
  testData : TestData
deriving DecidableEq, Repr

/-- The per-run accumulation of run_all_tests: the tests list carries over
from run to run, each run appends its own completed results, and
save_results writes a snapshot of the accumulated list at the end of every
run.  Given the accumulated list so far and the remaining runs' new results,
returns the successive file contents. -/
def accumulateSaves (acc : List TestResult) : List (List TestResult) → List (List TestResult)
  | [] => []
  | r :: rest => (acc ++ r) :: accumulateSaves (acc ++ r) rest

/-- The tests lists of the files test-1.json, test-2.json, ... written by
run_all_tests, given for each run the list of TestResults that run produced
(results of failed tests are skipped by the try block and do not appear). -/
def run_all_tests_files (runsResults : List (List TestResult)) : List (List TestResult) :=
  accumulateSaves [] runsResults

/-! ## Helper lemmas -/

/-- The ws echo trace interleaves one send after each recv. -/
theorem wsEchoTrace_eq_flatMap (ms : List Bytes) :
    wsEchoTrace ms = ms.flatMap fun m => [Event.recv m, Event.send m] := by
  induction ms with
  | nil => rfl
  | cons m rest ih => simp [wsEchoTrace, ih]

/-- When no chunk is empty, the tcp loop never hits its break and produces
one send of the kernel-accepted prefix after each recv. -/
theorem tcpEchoTrace_eq_flatMap (ps : List (Bytes × Nat)) (h : ∀ p ∈ ps, p.1 ≠ []) :
    tcpEchoTrace ps = ps.flatMap fun p => [Event.recv p.1, Event.send (p.1.take p.2)] := by
  induction ps with
  | nil => rfl
  | cons p rest ih =>
    obtain ⟨c, k⟩ := p
    have hc : c ≠ [] := h (c, k) (by simp)
    simp [tcpEchoTrace, hc, ih fun x hx => h x (by simp [hx])]

/-- In a trace that answers each received chunk with one send of some
per-chunk function of it, the sent bytes are the concatenation of those
per-chunk answers. -/
theorem sentBytes_pairTrace (f g : Bytes × Nat → Bytes) (l : List (Bytes × Nat)) :
    sentBytes (l.flatMap fun p => [Event.recv (g p), Event.send (f p)])
      = (l.map f).flatten := by
  induction l with
  | nil => rfl
  | cons p rest ih =>
    have hstep : ((p :: rest).flatMap fun p => [Event.recv (g p), Event.send (f p)])
        = Event.recv (g p) :: Event.send (f p) ::
            (rest.flatMap fun p => [Event.recv (g p), Event.send (f p)]) := by
      simp
    rw [hstep]
    simp only [sentBytes, ih, List.map_cons, List.flatten_cons]

/-- In such a trace the received bytes are the concatenation of the
chunks. -/
theorem receivedBytes_pairTrace (f g : Bytes × Nat → Bytes) (l : List (Bytes × Nat)) :
    receivedBytes (l.flatMap fun p => [Event.recv (g p), Event.send (f p)])
      = (l.map g).flatten := by
  induction l with
  | nil => rfl
  | cons p rest ih =>
    have hstep : ((p :: rest).flatMap fun p => [Event.recv (g p), Event.send (f p)])
        = Event.recv (g p) :: Event.send (f p) ::
            (rest.flatMap fun p => [Event.recv (g p), Event.send (f p)]) := by
      simp
    rw [hstep]
    simp only [receivedBytes, ih, List.map_cons, List.flatten_cons]

/-- In a recv-send interleaved trace, the sent bytes are the concatenation
of the chunks. -/
theorem sentBytes_interleaved (ms : List Bytes) :
    sentBytes (ms.flatMap fun m => [Event.recv m, Event.send m]) = ms.flatten := by
  induction ms with
  | nil => rfl
  | cons m rest ih =>
    have hstep : ((m :: rest).flatMap fun m => [Event.recv m, Event.send m])
        = Event.recv m :: Event.send m ::
            (rest.flatMap fun m => [Event.recv m, Event.send m]) := by
      simp
    rw [hstep]
    simp only [sentBytes, ih, List.flatten_cons]

/-- In a recv-send interleaved trace, the received bytes are the
concatenation of the chunks. -/
theorem receivedBytes_interleaved (ms : List Bytes) :
    receivedBytes (ms.flatMap fun m => [Event.recv m, Event.send m]) = ms.flatten := by
  induction ms with
  | nil => rfl
  | cons m rest ih =>
    have hstep : ((m :: rest).flatMap fun m => [Event.recv m, Event.send m])
        = Event.recv m :: Event.send m ::
            (rest.flatMap fun m => [Event.recv m, Event.send m]) := by
      simp
    rw [hstep]
    simp only [receivedBytes, ih, List.flatten_cons]

/-- The counter balance is preserved by any run of completed chunk
handlings. -/
theorem handleChunks_balanced (ns : List Nat) :
    ∀ s : ServerState, s.metrics.bytesSent = s.metrics.bytesReceived →
      s.metrics.packetsSent = s.metrics.packetsReceived →
      (handleChunks s ns).metrics.bytesSent = (handleChunks s ns).metrics.bytesReceived ∧
      (handleChunks s ns).metrics.packetsSent = (handleChunks s ns).metrics.packetsReceived := by
  induction ns with
  | nil => intro s hb hp; exact ⟨hb, hp⟩
  | cons n rest ih =>
    intro s hb hp
    simp only [handleChunks, List.foldl_cons] at *
    exact ih (handleChunk s n) (by simp [handleChunk, hb]) (by simp [handleChunk, hp])

/-! ## Claim theorems -/

/-- C1 counterexample: when the kernel accepts only 2 of the 3 bytes of a
received TCP chunk, the server — which ignores send's return value and
never retries the remainder — writes back [1, 2] for the received
[1, 2, 3]: the echoed bytes are not the bytes received. -/
theorem tcp_send_prefix_lost :
    receivedBytes (tcpEchoTrace [([1, 2, 3], 2)]) = [1, 2, 3] ∧
    sentBytes (tcpEchoTrace [([1, 2, 3], 2)]) = [1, 2] ∧
    sentBytes (tcpEchoTrace [([1, 2, 3], 2)])
      ≠ receivedBytes (tcpEchoTrace [([1, 2, 3], 2)]) := by
  decide

/-- C1 (amended): each received chunk is answered by exactly one send call
before the next read is issued on that connection, on both transports; on
the raw TCP stream the handler ignores send's return value, so what is
written back is the kernel-accepted prefix of each chunk, and the bytes
written back equal the bytes received exactly when every send accepts its
whole chunk; on the WebSocket message socket the echo is always exact. -/
theorem echo_per_chunk_prefix (ps : List (Bytes × Nat)) (ms : List Bytes)
    (hcs : ∀ p ∈ ps, p.1 ≠ []) :
    tcpEchoTrace ps = (ps.flatMap fun p => [Event.recv p.1, Event.send (p.1.take p.2)]) ∧
    receivedBytes (tcpEchoTrace ps) = (ps.map Prod.fst).flatten ∧
    sentBytes (tcpEchoTrace ps) = (ps.map fun p => p.1.take p.2).flatten ∧
    ((∀ p ∈ ps, p.1.length ≤ p.2) →
      sentBytes (tcpEchoTrace ps) = receivedBytes (tcpEchoTrace ps)) ∧
    sentBytes (wsEchoTrace ms) = ms.flatten ∧
    receivedBytes (wsEchoTrace ms) = ms.flatten ∧
    wsEchoTrace ms = (ms.flatMap fun m => [Event.recv m, Event.send m]) := by
  have htcp := tcpEchoTrace_eq_flatMap ps hcs
  have hws := wsEchoTrace_eq_flatMap ms
  have hsent : sentBytes (tcpEchoTrace ps) = (ps.map fun p => p.1.take p.2).flatten := by
    rw [htcp]; exact sentBytes_pairTrace _ _ ps
  have hrecv : receivedBytes (tcpEchoTrace ps) = (ps.map Prod.fst).flatten := by
    rw [htcp]; exact receivedBytes_pairTrace _ _ ps
  refine ⟨htcp, hrecv, hsent, fun hfull => ?_, ?_, ?_, hws⟩
  · rw [hsent, hrecv]
    have : (ps.map fun p => p.1.take p.2) = ps.map Prod.fst := by
      apply List.map_congr_left
      intro p hp
      exact List.take_of_length_le (hfull p hp)
    rw [this]
  · rw [hws]; exact sentBytes_interleaved ms
  · rw [hws]; exact receivedBytes_interleaved ms

/-- Witness for the amended C1: two TCP chunks whose sends are accepted in
full (write counts 2 and 5) and one WebSocket message. -/
theorem echo_per_chunk_prefix_witness :
    (∀ p ∈ ([([1, 2], 2), ([3], 5)] : List (Bytes × Nat)), p.1 ≠ []) ∧
    (tcpEchoTrace [([1, 2], 2), ([3], 5)]
        = (([([1, 2], 2), ([3], 5)] : List (Bytes × Nat)).flatMap
            fun p => [Event.recv p.1, Event.send (p.1.take p.2)]) ∧
      receivedBytes (tcpEchoTrace [([1, 2], 2), ([3], 5)])
        = (([([1, 2], 2), ([3], 5)] : List (Bytes × Nat)).map Prod.fst).flatten ∧
      sentBytes (tcpEchoTrace [([1, 2], 2), ([3], 5)])
        = (([([1, 2], 2), ([3], 5)] : List (Bytes × Nat)).map fun p => p.1.take p.2).flatten ∧
      sentBytes (tcpEchoTrace [([1, 2], 2), ([3], 5)])
        = receivedBytes (tcpEchoTrace [([1, 2], 2), ([3], 5)]) ∧
      sentBytes (wsEchoTrace [[4]]) = ([[4]] : List Bytes).flatten ∧
      receivedBytes (wsEchoTrace [[4]]) = ([[4]] : List Bytes).flatten ∧
      wsEchoTrace [[4]] = (([[4]] : List Bytes).flatMap
        fun m => [Event.recv m, Event.send m])) :=
  ⟨by decide,
    have h := echo_per_chunk_prefix [([1, 2], 2), ([3], 5)] [[4]] (by decide)
    ⟨h.1, h.2.1, h.2.2.1, h.2.2.2.1 (by decide), h.2.2.2.2.1, h.2.2.2.2.2.1,
      h.2.2.2.2.2.2⟩⟩

/-- C2: after any sequence of fully completed echo exchanges starting from a
state whose counters are balanced (as they are at server start),
bytesSent equals bytesReceived and packetsSent equals packetsReceived. -/
theorem server_stats_balanced (s : ServerState) (ns : List Nat)
    (hb : s.metrics.bytesSent = s.metrics.bytesReceived)
    (hp : s.metrics.packetsSent = s.metrics.packetsReceived) :
    (handleChunks s ns).metrics.bytesSent = (handleChunks s ns).metrics.bytesReceived ∧
    (handleChunks s ns).metrics.packetsSent = (handleChunks s ns).metrics.packetsReceived :=
  handleChunks_balanced ns s hb hp

/-- Witness for C2 from the initial server state and chunk sizes [3, 5]. -/
theorem server_stats_balanced_witness :
    (initialState 0).metrics.bytesSent = (initialState 0).metrics.bytesReceived ∧
    ((handleChunks (initialState 0) [3, 5]).metrics.bytesSent
        = (handleChunks (initialState 0) [3, 5]).metrics.bytesReceived ∧
      (handleChunks (initialState 0) [3, 5]).metrics.packetsSent
        = (handleChunks (initialState 0) [3, 5]).metrics.packetsReceived) :=
  ⟨rfl, server_stats_balanced (initialState 0) [3, 5] rfl rfl⟩

/-- C10: handling one TCP echo chunk of n bytes adds exactly n to
bytesReceived and bytesSent and exactly 1 to packetsReceived and
packetsSent, and leaves startTime and both per-transport connection sets
unchanged; and the finally block of handle_tcp_client always leaves the
connection outside the active tcp set, whatever chunks were handled before
the handler exited. -/
theorem chunk_frame_effect (s : ServerState) (n conn : Nat) (chunks : List Nat) :
    (handleChunk s n).metrics.bytesReceived = s.metrics.bytesReceived + n ∧
    (handleChunk s n).metrics.bytesSent = s.metrics.bytesSent + n ∧
    (handleChunk s n).metrics.packetsReceived = s.metrics.packetsReceived + 1 ∧
    (handleChunk s n).metrics.packetsSent = s.metrics.packetsSent + 1 ∧
    (handleChunk s n).startTime = s.startTime ∧
    (handleChunk s n).tcpConnections = s.tcpConnections ∧
    (handleChunk s n).wsConnections = s.wsConnections ∧
    conn ∉ (handle_tcp_client s conn chunks).tcpConnections := by
  refine ⟨rfl, rfl, rfl, rfl, rfl, rfl, rfl, ?_⟩
  simp only [handle_tcp_client]
  exact Finset.not_mem_erase conn _

/-- C3 counterexample: at uptimeSeconds = 0 the metrics query of the fresh
server raises ZeroDivisionError instead of returning rate fields equal to
0 — the division carries no zero guard. -/
theorem metrics_zero_uptime_raises :
    get_metrics (initialState 0) 0 = Except.error PyError.zeroDivision := by
  simp only [get_metrics, pyDiv, if_pos rfl]
  rfl

/-- C3 (amended): every rate field is computed as counter / uptimeSeconds
whenever uptimeSeconds is nonzero, but a query at uptimeSeconds = 0 raises a
ZeroDivisionError rather than returning 0. -/
theorem metrics_rates_formula (s : ServerState) (u : ℚ) (hu : u ≠ 0) :
    get_metrics s u = Except.ok
      { uptime := u
        tcpConnCount := s.tcpConnections.card
        wsConnCount := s.wsConnections.card
        totalConnCount := s.tcpConnections.card + s.wsConnections.card
        throughput :=
          { bytesInPerSec := (s.metrics.bytesReceived : ℚ) / u
            bytesOutPerSec := (s.metrics.bytesSent : ℚ) / u
            packetsInPerSec := (s.metrics.packetsReceived : ℚ) / u
            packetsOutPerSec := (s.metrics.packetsSent : ℚ) / u } } ∧
    get_metrics s 0 = Except.error PyError.zeroDivision := by
  constructor
  · simp only [get_metrics, pyDiv, if_neg hu]
    rfl
  · simp only [get_metrics, pyDiv, if_pos rfl]
    rfl

/-- Witness for the amended C3 at the fresh server state and uptime 2. -/
theorem metrics_rates_formula_witness :
    (2 : ℚ) ≠ 0 ∧
    (get_metrics (initialState 0) 2 = Except.ok
      { uptime := 2
        tcpConnCount := (initialState 0).tcpConnections.card
        wsConnCount := (initialState 0).wsConnections.card
        totalConnCount :=
          (initialState 0).tcpConnections.card + (initialState 0).wsConnections.card
        throughput :=
          { bytesInPerSec := ((initialState 0).metrics.bytesReceived : ℚ) / 2
            bytesOutPerSec := ((initialState 0).metrics.bytesSent : ℚ) / 2
            packetsInPerSec := ((initialState 0).metrics.packetsReceived : ℚ) / 2
            packetsOutPerSec := ((initialState 0).metrics.packetsSent : ℚ) / 2 } } ∧
      get_metrics (initialState 0) 0 = Except.error PyError.zeroDivision) :=
  ⟨by norm_num, metrics_rates_formula (initialState 0) 2 (by norm_num)⟩

/-- The bytes_sent accumulator sums to 1000 constant-size sends. -/
theorem foldl_add_const {α : Type} (k : Nat) (l : List α) :
    ∀ a, l.foldl (fun acc _ => acc + k) a = a + l.length * k := by
  induction l with
  | nil => intro a; simp
  | cons x xs ih =>
    intro a
    simp only [List.foldl_cons, ih, List.length_cons]
    ring

/-- C5: a throughput iteration sends a fixed batch of 1000 fire-and-forget
writes of messageSizeBytes each (bytes_sent accumulates to
1000 * messageSizeBytes), returns bytes_sent / elapsedSeconds for the whole
batch when the elapsed time is positive, and returns 0 instead of raising a
divide-by-zero failure when the measured elapsed time is zero. -/
theorem throughput_iteration_formula (messageSize : Nat) (elapsed : ℚ) :
    throughput_batch_bytes messageSize = 1000 * messageSize ∧
    (0 < elapsed →
      throughput_iteration messageSize elapsed = (1000 * messageSize : ℚ) / elapsed) ∧
    throughput_iteration messageSize 0 = 0 := by
  have hbatch : throughput_batch_bytes messageSize = 1000 * messageSize := by
    simp [throughput_batch_bytes, foldl_add_const]
  refine ⟨hbatch, fun he => ?_, by simp [throughput_iteration]⟩
  simp [throughput_iteration, he, hbatch]

/-- Witness for C5 at message size 64 and elapsed times 2 and 0. -/
theorem throughput_iteration_formula_witness :
    (0 : ℚ) < 2 ∧
    (throughput_batch_bytes 64 = 1000 * 64 ∧
      throughput_iteration 64 2 = (1000 * 64 : ℚ) / 2 ∧
      throughput_iteration 64 0 = 0) :=
  have h := throughput_iteration_formula 64 2
  ⟨by norm_num, h.1, h.2.1 (by norm_num), h.2.2⟩

/-- C6 counterexample: with messageSizeBytes = 4, the peer delivering 2
bytes and then closing (recv returning 0), and no exception, the iteration
reads back only 2 of the 4 bytes yet still returns the elapsed-time
measurement rather than terminating as a failure. -/
theorem latency_partial_echo_still_measures :
    (latency_iteration 4 [2, 0] 1 false).received = 2 ∧
    (latency_iteration 4 [2, 0] 1 false).received < 4 ∧
    (latency_iteration 4 [2, 0] 1 false).result ≠ Option.none := by
  refine ⟨by decide, by decide, ?_⟩
  simp [latency_iteration]

/-- The echo-read loop never reads more than the requested message size. -/
theorem recv_loop_le (size : Nat) (reads : List Nat) :
    ∀ received, received ≤ size → recv_loop size received reads ≤ size := by
  induction reads with
  | nil => intro received h; simpa [recv_loop] using h
  | cons r rest ih =>
    intro received h
    unfold recv_loop
    split
    · split
      · exact h
      · exact ih _ (by omega)
    · exact h

/-- C6 (amended): a latency iteration returns None exactly on a connect or
I/O exception; otherwise it returns the elapsed time in milliseconds whether
or not the full messageSizeBytes were read back — a peer close mid-response
breaks the read loop (which never reads more than messageSizeBytes) and the
measurement is still returned. -/
theorem latency_iteration_behaviour (size : Nat) (reads : List Nat) (elapsed : ℚ) :
    (latency_iteration size reads elapsed true).result = Option.none ∧
    (latency_iteration size reads elapsed false).result = Option.some (elapsed * 1000) ∧
    (latency_iteration size reads elapsed false).received = recv_loop size 0 reads ∧
    (latency_iteration size reads elapsed false).received ≤ size := by
  refine ⟨rfl, rfl, rfl, ?_⟩
  simpa [latency_iteration] using recv_loop_le size reads 0 (Nat.zero_le size)

/-- C7 counterexample: the jitter column the client writes for the rtt
sequence [10, 15, 12] ms is [0, 5, 3] — the first element is recorded as 0,
not as a null absent value as the post-hoc spec derivation would have it. -/
theorem jitter_first_element_is_zero :
    send_messages_jitters [10, 15, 12] = [0, 5, 3] ∧
    jitterSpec [10, 15, 12] = [Option.none, Option.some 5, Option.some 3] ∧
    (send_messages_jitters [10, 15, 12]).map Option.some ≠ jitterSpec [10, 15, 12] := by
  have h1 : send_messages_jitters [10, 15, 12] = [0, 5, 3] := by
    simp [send_messages_jitters, jitters_aux, jitter_step]
    norm_num [abs_of_nonneg, abs_of_nonpos]
  have h2 : jitterSpec [10, 15, 12] = [Option.none, Option.some 5, Option.some 3] := by
    simp [jitterSpec, jitterSpecTail]
    norm_num [abs_of_nonneg, abs_of_nonpos]
  refine ⟨h1, h2, ?_⟩
  rw [h1, h2]
  simp

/-- C7 (amended): the jitter sequence for a nonempty latency sequence starts
with 0 (not null) and continues with the absolute differences of consecutive
latencies, except that an element whose predecessor rtt is 0 is also
recorded as 0 (Python treats a 0.0 previous rtt as falsy); in particular
[10, 15, 12] ms yields [0, 5, 3]. -/
theorem jitter_sequence_shape (x : ℚ) (xs : List ℚ) :
    send_messages_jitters (x :: xs) = 0 :: jitterTail x xs ∧
    send_messages_jitters [10, 15, 12] = [0, 5, 3] := by
  constructor
  · suffices haux : ∀ (ys : List ℚ) (p : ℚ), jitters_aux (Option.some p) ys = jitterTail p ys by
      simp [send_messages_jitters, jitters_aux, jitter_step, haux]
    intro ys
    induction ys with
    | nil => intro p; rfl
    | cons y ys ih => intro p; simp [jitters_aux, jitter_step, jitterTail, ih]
  · simp [send_messages_jitters, jitters_aux, jitter_step]
    norm_num [abs_of_nonneg, abs_of_nonpos]

/-- A concrete two-sample monitor series: one sample at t = 0 (outside a
test window starting at t = 50) and one at t = 100 (inside it). -/
def mdTwoSamples : MonitorData :=
  { timestamps := [0, 100]
    cpu := [10, 20]
    mem := [30, 40]
    temp := [50, 60]
    net := { rx := [{ bytes := 100, packets := 1 }, { bytes := 150, packets := 2 }]
             tx := [{ bytes := 200, packets := 3 }, { bytes := 260, packets := 4 }] }
    clock := [1, 2] }

/-- C4 counterexample: for the two-sample series and the test window
[50, 150] that contains only the second sample, analyze_monitor_data
averages both samples (cpuAvg 15, not the windowed 20) and sums the
cumulative rx counters of both samples (rxTotal 250, not the windowed delta
0): the aggregation attached to a test is not restricted to the test's
window and its byte totals are not deltas. -/
theorem aggregation_not_windowed :
    (analyze_monitor_data mdTwoSamples).cpuAvg = 15 ∧
    (analyzeWindowedSpec mdTwoSamples 50 150).cpuAvg = 20 ∧
    (analyze_monitor_data mdTwoSamples).rxTotal = 250 ∧
    (analyzeWindowedSpec mdTwoSamples 50 150).rxTotal = 0 ∧
    analyze_monitor_data mdTwoSamples ≠ analyzeWindowedSpec mdTwoSamples 50 150 := by
  have hcode : (analyze_monitor_data mdTwoSamples).cpuAvg = 15 := by
    norm_num [analyze_monitor_data, avg, mdTwoSamples]
    decide
  have hspec : (analyzeWindowedSpec mdTwoSamples 50 150).cpuAvg = 20 := by
    norm_num [analyzeWindowedSpec, avg, windowValues, mdTwoSamples, List.zip, List.zipWith,
      List.filter]
  have hrx : (analyze_monitor_data mdTwoSamples).rxTotal = 250 := by
    norm_num [analyze_monitor_data, mdTwoSamples]
  have hrxSpec : (analyzeWindowedSpec mdTwoSamples 50 150).rxTotal = 0 := by
    norm_num [analyzeWindowedSpec, counterDelta, windowEntries, mdTwoSamples, List.zip,
      List.zipWith, List.filter]
  refine ⟨hcode, hspec, hrx, hrxSpec, fun hcontra => ?_⟩
  rw [hcontra] at hrx
  rw [hrxSpec] at hrx
  exact absurd hrx (by norm_num)

/-- A window that covers every timestamp of a series filters nothing. -/
theorem windowValues_covering (ts : List Int) (vals : List ℚ) (lo hi : Int)
    (hlen : ts.length = vals.length)
    (hin : ∀ t ∈ ts, lo ≤ t ∧ t ≤ hi) :
    windowValues ts vals lo hi = vals := by
  unfold windowValues
  have hfilter : ((ts.zip vals).filter fun p => decide (lo ≤ p.1 ∧ p.1 ≤ hi)) = ts.zip vals := by
    apply List.filter_eq_self.mpr
    intro a ha
    obtain ⟨x, y⟩ := a
    have hx := (List.of_mem_zip ha).1
    simpa using hin x hx
  rw [hfilter]
  exact List.map_snd_zip ts vals (le_of_eq hlen.symm)

/-- C4 (amended): the AggregatedMetrics attached to a test are computed from
the entire Monitor series with no timestamp filtering — the result does not
depend on the timestamps at all, the averages coincide with the windowed
averages only when the window covers every sample of the series, and
rxTotal and txTotal are the sums of the sampled cumulative byte counters
over all samples rather than deltas over the test window. -/
theorem aggregation_over_full_series (md : MonitorData) (lo hi : Int)
    (hc : md.timestamps.length = md.cpu.length)
    (hm : md.timestamps.length = md.mem.length)
    (ht : md.timestamps.length = md.temp.length)
    (hk : md.timestamps.length = md.clock.length)
    (hin : ∀ t ∈ md.timestamps, lo ≤ t ∧ t ≤ hi) :
    (∀ ts2 : List Int,
      analyze_monitor_data { md with timestamps := ts2 } = analyze_monitor_data md) ∧
    (analyzeWindowedSpec md lo hi).cpuAvg = (analyze_monitor_data md).cpuAvg ∧
    (analyzeWindowedSpec md lo hi).memAvg = (analyze_monitor_data md).memAvg ∧
    (analyzeWindowedSpec md lo hi).tempAvg = (analyze_monitor_data md).tempAvg ∧
    (analyzeWindowedSpec md lo hi).clockAvg = (analyze_monitor_data md).clockAvg ∧
    (analyze_monitor_data md).rxTotal = (md.net.rx.map fun x => (x.bytes : Int)).sum ∧
    (analyze_monitor_data md).txTotal = (md.net.tx.map fun x => (x.bytes : Int)).sum := by
  refine ⟨fun ts2 => rfl, ?_, ?_, ?_, ?_, rfl, rfl⟩
  · simp [analyzeWindowedSpec, analyze_monitor_data, windowValues_covering _ _ _ _ hc hin]
  · simp [analyzeWindowedSpec, analyze_monitor_data, windowValues_covering _ _ _ _ hm hin]
  · simp [analyzeWindowedSpec, analyze_monitor_data, windowValues_covering _ _ _ _ ht hin]
  · simp [analyzeWindowedSpec, analyze_monitor_data, windowValues_covering _ _ _ _ hk hin]

/-- Witness for the amended C4 at the two-sample series and the covering
window [-1, 200]. -/
theorem aggregation_over_full_series_witness :
    (mdTwoSamples.timestamps.length = mdTwoSamples.cpu.length ∧
      (∀ t ∈ mdTwoSamples.timestamps, (-1 : Int) ≤ t ∧ t ≤ 200)) ∧
    ((∀ ts2 : List Int,
        analyze_monitor_data { mdTwoSamples with timestamps := ts2 }
          = analyze_monitor_data mdTwoSamples) ∧
      (analyzeWindowedSpec mdTwoSamples (-1) 200).cpuAvg
        = (analyze_monitor_data mdTwoSamples).cpuAvg ∧
      (analyzeWindowedSpec mdTwoSamples (-1) 200).memAvg
        = (analyze_monitor_data mdTwoSamples).memAvg ∧
      (analyzeWindowedSpec mdTwoSamples (-1) 200).tempAvg
        = (analyze_monitor_data mdTwoSamples).tempAvg ∧
      (analyzeWindowedSpec mdTwoSamples (-1) 200).clockAvg
        = (analyze_monitor_data mdTwoSamples).clockAvg ∧
      (analyze_monitor_data mdTwoSamples).rxTotal
        = (mdTwoSamples.net.rx.map fun x => (x.bytes : Int)).sum ∧
      (analyze_monitor_data mdTwoSamples).txTotal
        = (mdTwoSamples.net.tx.map fun x => (x.bytes : Int)).sum) :=
  ⟨⟨rfl, by decide⟩,
    aggregation_over_full_series mdTwoSamples (-1) 200 rfl rfl rfl rfl (by decide)⟩

/-- A tick's provider readings in which the cpu/mem command succeeds with
two well-formed tokens but the temperature command raises. -/
def tickInputTempFails : TickInput :=
  { cpuMemTokens := Option.some [Option.some 50, Option.some 40]
    temp := Option.none
    clock := Option.some 1
    netStats := Option.some [1, 2, 3, 4] }

/-- A tick's provider readings in which the cpu/mem command exits
successfully but prints only one token, so float(output[1]) raises after
the cpu value has already been appended. -/
def tickInputMemFails : TickInput :=
  { cpuMemTokens := Option.some [Option.some 50]
    temp := Option.some 55
    clock := Option.some 1
    netStats := Option.some [1, 2, 3, 4] }

/-- C8 counterexample: on a tick whose temperature provider fails (with the
clock and network providers perfectly available), monitor_loop appends the
timestamp, cpu and mem values and then aborts, appending nothing for temp,
clock or network; and on a tick whose cpu/mem command prints only one
token, the cpu value is appended and the mem parse then raises, leaving
even the cpu and mem series of unequal lengths — no sentinel value is
recorded and the parallel series is left with some fields appended and
others missing. -/
theorem tick_failure_leaves_ragged_lists :
    (monitor_tick emptyMonitorData 0 tickInputTempFails).timestamps.length = 1 ∧
    (monitor_tick emptyMonitorData 0 tickInputTempFails).cpu.length = 1 ∧
    (monitor_tick emptyMonitorData 0 tickInputTempFails).mem.length = 1 ∧
    (monitor_tick emptyMonitorData 0 tickInputTempFails).temp.length = 0 ∧
    (monitor_tick emptyMonitorData 0 tickInputTempFails).clock.length = 0 ∧
    (monitor_tick emptyMonitorData 0 tickInputTempFails).net.rx.length = 0 ∧
    (monitor_tick emptyMonitorData 0 tickInputTempFails).temp.length ≠
      (monitor_tick emptyMonitorData 0 tickInputTempFails).timestamps.length ∧
    (monitor_tick emptyMonitorData 0 tickInputMemFails).cpu.length = 1 ∧
    (monitor_tick emptyMonitorData 0 tickInputMemFails).mem.length = 0 ∧
    (monitor_tick emptyMonitorData 0 tickInputMemFails).cpu.length ≠
      (monitor_tick emptyMonitorData 0 tickInputMemFails).mem.length := by
  simp [monitor_tick, tickInputTempFails, tickInputMemFails, emptyMonitorData]

/-- C8 (amended): each field of the monitor series grows on a tick exactly
up to the first failing statement of the loop body — the timestamp always;
cpu when its command succeeds and its token float-parses; mem only when the
cpu append happened and the second token exists and float-parses (the cpu
append precedes the mem parse, so a one-token output grows cpu but not
mem); temp, clock and network only when everything before them succeeded
too.  A failing provider does not get a sentinel (except that a short but
successful network read appends zero entries) and the remainder of the tick
is skipped. -/
theorem tick_append_pattern (md : MonitorData) (t : Int) (inp : TickInput) :
    (monitor_tick md t inp).timestamps.length = md.timestamps.length + 1 ∧
    (monitor_tick md t inp).cpu.length = md.cpu.length + (cpuStepOk inp).toNat ∧
    (monitor_tick md t inp).mem.length = md.mem.length + (memStepOk inp).toNat ∧
    (monitor_tick md t inp).temp.length
      = md.temp.length + (memStepOk inp && inp.temp.isSome).toNat ∧
    (monitor_tick md t inp).clock.length
      = md.clock.length + (memStepOk inp && inp.temp.isSome && inp.clock.isSome).toNat ∧
    (monitor_tick md t inp).net.rx.length
      = md.net.rx.length
        + (memStepOk inp && inp.temp.isSome && inp.clock.isSome
            && inp.netStats.isSome).toNat ∧
    (monitor_tick md t inp).net.tx.length
      = md.net.tx.length
        + (memStepOk inp && inp.temp.isSome && inp.clock.isSome
            && inp.netStats.isSome).toNat := by
  obtain ⟨cmt, tp, ck, ns⟩ := inp
  cases cmt with
  | none => simp [monitor_tick, cpuStepOk, memStepOk]
  | some toks =>
    rcases h0 : toks[0]? with _ | c0
    · simp [monitor_tick, cpuStepOk, memStepOk, h0]
    · cases c0 with
      | none => simp [monitor_tick, cpuStepOk, memStepOk, h0]
      | some c =>
        rcases h1 : toks[1]? with _ | m0
        · simp [monitor_tick, cpuStepOk, memStepOk, h0, h1]
        · cases m0 with
          | none => simp [monitor_tick, cpuStepOk, memStepOk, h0, h1]
          | some m =>
            cases tp with
            | none => simp [monitor_tick, cpuStepOk, memStepOk, h0, h1]
            | some tv =>
              cases ck with
              | none => simp [monitor_tick, cpuStepOk, memStepOk, h0, h1]
              | some cv =>
                cases ns with
                | none => simp [monitor_tick, cpuStepOk, memStepOk, h0, h1]
                | some stats =>
                  by_cases h4 : 4 ≤ stats.length
                  · simp [monitor_tick, cpuStepOk, memStepOk, h0, h1, h4]
                  · simp [monitor_tick, cpuStepOk, memStepOk, h0, h1, h4]

/-- The accumulator writes one snapshot per run. -/
theorem accumulateSaves_length (rs : List (List TestResult)) :
    ∀ acc, (accumulateSaves acc rs).length = rs.length := by
  induction rs with
  | nil => intro acc; rfl
  | cons r rest ih => intro acc; simp [accumulateSaves, ih]

/-- The snapshot written after run n holds the carried-over accumulator
followed by every test of runs 1..n+1. -/
theorem accumulateSaves_getD (rs : List (List TestResult)) :
    ∀ (acc : List TestResult) (n : Nat), n < rs.length →
      (accumulateSaves acc rs).getD n [] = acc ++ (rs.take (n + 1)).flatten := by
  induction rs with
  | nil => intro acc n h; exact absurd h (by simp)
  | cons r rest ih =>
    intro acc n h
    cases n with
    | zero => simp [accumulateSaves]
    | succ m =>
      have hm : m < rest.length := by simpa using h
      calc (accumulateSaves acc (r :: rest)).getD (m + 1) []
          = (accumulateSaves (acc ++ r) rest).getD m [] := by
            simp [accumulateSaves]
        _ = (acc ++ r) ++ (rest.take (m + 1)).flatten := ih (acc ++ r) m hm
        _ = acc ++ ((r :: rest).take (m + 2)).flatten := by
            simp [List.take_succ_cons, List.flatten_cons, List.append_assoc]

/-- C9: run_all_tests writes one result file per run, each holding the full
accumulated tests list — the file written after run n+1 (0-indexed n)
contains exactly the TestResults of runs 1..n+1 in order, and consequently
for the same configured matrix each file's tests list is at least as long
as the previous file's. -/
theorem result_files_accumulate (runsResults : List (List TestResult)) :
    (run_all_tests_files runsResults).length = runsResults.length ∧
    (∀ n, n < runsResults.length →
      (run_all_tests_files runsResults).getD n [] = (runsResults.take (n + 1)).flatten) ∧
    (∀ n, n + 1 < runsResults.length →
      ((run_all_tests_files runsResults).getD n []).length ≤
        ((run_all_tests_files runsResults).getD (n + 1) []).length) := by
  have hget : ∀ n, n < runsResults.length →
      (run_all_tests_files runsResults).getD n [] = (runsResults.take (n + 1)).flatten := by
    intro n hn
    simpa using accumulateSaves_getD runsResults [] n hn
  refine ⟨accumulateSaves_length runsResults [], hget, fun n hn => ?_⟩
  rw [hget n (by omega), hget (n + 1) hn]
  have hsplit : runsResults.take (n + 2) = runsResults.take (n + 1) ++ runsResults[n + 1]?.toList := by
    simpa using List.take_succ (l := runsResults) (n := n + 1)
  rw [hsplit, List.flatten_append, List.length_append]
  omega

/-- A concrete completed test result. -/
def trLatency64 : TestResult :=
  { type := TestType.latency
    durationSec := 1
    messageSize := 64
    metrics := analyze_monitor_data emptyMonitorData
    timestampMillis := 0
    testData := { timestamps := [], latencies := [], throughputs := [] } }

/-- Witness for C9 with two runs of one completed test each. -/
theorem result_files_accumulate_witness :
    (1 < ([[trLatency64], [trLatency64]] : List (List TestResult)).length ∧
      0 + 1 < ([[trLatency64], [trLatency64]] : List (List TestResult)).length) ∧
    ((run_all_tests_files [[trLatency64], [trLatency64]]).getD 1 []
        = (([[trLatency64], [trLatency64]] : List (List TestResult)).take 2).flatten ∧
      ((run_all_tests_files [[trLatency64], [trLatency64]]).getD 0 []).length ≤
        ((run_all_tests_files [[trLatency64], [trLatency64]]).getD 1 []).length) :=
  ⟨⟨by decide, by decide⟩,
    ⟨(result_files_accumulate [[trLatency64], [trLatency64]]).2.1 1 (by decide),
      (result_files_accumulate [[trLatency64], [trLatency64]]).2.2 0 (by decide)⟩⟩

end SocketPi
